import Mathlib

/-!
# Library Management System — verification of the record managers

Shallow embedding of the Python library-catalog manager: the `Book`,
`User` and `CheckoutRecord` data model, the `BookManager`, `UserManager`
and `CheckoutManager` operations, and the generic JSON storage layer.

Python in-memory lists become Lean `List`s; methods that mutate
`self` become functions returning the new state; `None`-able string
parameters become `Option String`.  Python truthiness on optional string
arguments (`if new_title:`) is modelled by `truthy` (provided and
non-empty).  Mutation of an aliased object returned by
`find_book_by_isbn` (the checkout/checkin paths) is modelled by updating
the first list element with the matching isbn, which is exactly the
object Python's `next`/first-match lookup returns.
-/

namespace LibraryMS

/-- Python class `Book` from book.py: title, author, isbn, and the availability flag
(defaulting to true in the Python constructor). -/
structure Book where
  title : String
  author : String
  isbn : String
  available : Bool
  deriving DecidableEq, Repr

/-- Python class `User` from user.py: name and user id. -/
structure User where
  name : String
  user_id : String
  deriving DecidableEq, Repr

/-- Python class `CheckoutRecord` from check.py: the borrowing user's id and the
borrowed book's isbn. -/
structure CheckoutRecord where
  user_id : String
  isbn : String
  deriving DecidableEq, Repr

/-! Embedding of BookManager (book.py). -/

/-- Embeds `BookManager.find_book_by_isbn`: first book whose isbn matches, if any. -/
def find_book_by_isbn (books : List Book) (isbn : String) : Option Book :=
  books.find? (fun b => b.isbn == isbn)

/-- Embeds `BookManager.add_book`: reject if any existing book has the isbn,
otherwise append a new available book.  Returns the Python boolean
result together with the new in-memory collection. -/
def add_book (books : List Book) (title author isbn : String) :
    Bool × List Book :=
  if books.any (fun b => b.isbn == isbn) then (false, books)
  else (true, books ++ [⟨title, author, isbn, true⟩])

/-- Python truthiness of an optional-string argument: `if new_title:`
is false both for `None` and for the empty string. -/
def truthy (o : Option String) : Bool :=
  match o with
  | some s => !(s == "")
  | none => false

/-- Apply one optional field update the way `update_book` does:
keep the current value unless the new one is provided and non-empty. -/
def applyStr (cur : String) (o : Option String) : String :=
  match o with
  | some s => if s == "" then cur else s
  | none => cur

/-- The field updates `update_book` applies to the found book. -/
def applyBookUpdates (b : Book) (nt na ni : Option String) : Book :=
  ⟨applyStr b.title nt, applyStr b.author na, applyStr b.isbn ni, b.available⟩

/-- Replace the element at position `j` by `f` of it (identity elsewhere);
models Python's in-place mutation of one object held in a list. -/
def setAt {α : Type} (l : List α) (j : Nat) (f : α → α) : List α :=
  match l, j with
  | [], _ => []
  | a :: rest, 0 => f a :: rest
  | a :: rest, Nat.succ k => a :: setAt rest k f

/-- Embeds `BookManager.update_book`: find the first book with the given isbn
(`None` → false).  If a non-empty `new_isbn` is provided and any *other*
book already has it, reject without mutation.  Otherwise apply exactly
the provided non-empty fields to the found book. -/
def update_book (books : List Book) (isbn : String)
    (nt na ni : Option String) : Bool × List Book :=
  match books.findIdx? (fun b => b.isbn == isbn) with
  | none => (false, books)
  | some j =>
    if truthy ni &&
        (books.enum.any fun p => (p.1 != j) && (p.2.isbn == ni.getD "")) then
      (false, books)
    else
      (true, setAt books j (fun b => applyBookUpdates b nt na ni))

/-! Embedding of UserManager (user.py). -/

/-- Embeds `UserManager.add_user`: reject if any existing user has the id,
otherwise append. -/
def add_user (users : List User) (name user_id : String) :
    Bool × List User :=
  if users.any (fun u => u.user_id == user_id) then (false, users)
  else (true, users ++ [⟨name, user_id⟩])

/-- Embeds `UserManager.update_user`: find the first user with the given id
(`None` → false).  A provided non-empty `new_name` is applied FIRST;
only then, if a non-empty `new_user_id` is provided and collides with a
different user, the call returns false — with the name change already
made to the in-memory object. -/
def update_user (users : List User) (user_id : String)
    (nn nu : Option String) : Bool × List User :=
  match users.findIdx? (fun u => u.user_id == user_id) with
  | none => (false, users)
  | some j =>
    let users1 :=
      if truthy nn then setAt users j (fun u => ⟨nn.getD u.name, u.user_id⟩)
      else users
    if truthy nu then
      if users1.enum.any fun p => (p.1 != j) && (p.2.user_id == nu.getD "") then
        (false, users1)
      else
        (true, setAt users1 j (fun u => ⟨u.name, nu.getD u.user_id⟩))
    else
      (true, users1)

/-! Embedding of CheckoutManager (check.py).

The manager holds its own checkouts list and a reference to the
BookManager's books list; `LedgerState` bundles both.  Setting
`book.available` on the object returned by `find_book_by_isbn` mutates
the first matching element of the books list, which `set_available`
reproduces. -/

/-- Combined state of the checkout ledger and the book registry it
mutates through its `book_manager` reference. -/
structure LedgerState where
  books : List Book
  checkouts : List CheckoutRecord
  deriving DecidableEq, Repr

/-- Flip the availability flag of the first book whose isbn matches
(no-op when none does): the effect of `book.available = v` on the book
object `find_book_by_isbn` returned. -/
def set_available (books : List Book) (isbn : String) (v : Bool) :
    List Book :=
  match books with
  | [] => []
  | b :: rest =>
    if b.isbn == isbn then ⟨b.title, b.author, b.isbn, v⟩ :: rest
    else b :: set_available rest isbn v

/-- Embeds `CheckoutManager.checkout_book`: reject if the isbn is already in a
checkout record; reject if the user already holds 3 or more; reject if
the book is missing or unavailable; otherwise mark the book unavailable
and append the new record. -/
def checkout_book (s : LedgerState) (user_id isbn : String) :
    Bool × LedgerState :=
  if s.checkouts.any (fun c => c.isbn == isbn) then (false, s)
  else if 3 ≤ (s.checkouts.filter (fun c => c.user_id == user_id)).length
    then (false, s)
  else
    match find_book_by_isbn s.books isbn with
    | some b =>
      if b.available then
        (true, ⟨set_available s.books isbn false,
                s.checkouts ++ [⟨user_id, isbn⟩]⟩)
      else (false, s)
    | none => (false, s)

/-- Remove the first checkout record with the given isbn (the one the
`for` loop in `checkin_book` finds and `list.remove`s). -/
def remove_first_isbn (checkouts : List CheckoutRecord) (isbn : String) :
    List CheckoutRecord :=
  match checkouts with
  | [] => []
  | c :: rest =>
    if c.isbn == isbn then rest else c :: remove_first_isbn rest isbn

/-- Embeds `CheckoutManager.checkin_book`: scan for a record with the isbn; if
found remove it and, when the book registry still has the book, mark it
available; otherwise return false untouched. -/
def checkin_book (s : LedgerState) (isbn : String) : Bool × LedgerState :=
  if s.checkouts.any (fun c => c.isbn == isbn) then
    (true,
     ⟨match find_book_by_isbn s.books isbn with
       | some _ => set_available s.books isbn true
       | none => s.books,
      remove_first_isbn s.checkouts isbn⟩)
  else (false, s)

/-- Embeds `CheckoutManager.list_user_checkouts`: all records of one user, in
ledger order. -/
def list_user_checkouts (checkouts : List CheckoutRecord)
    (user_id : String) : List CheckoutRecord :=
  checkouts.filter (fun c => c.user_id == user_id)

/-! Embedding of StorageManager (storage.py).

`save_data` writes the records' `__dict__`s as a JSON array;
`load_data` parses the file and rebuilds each record with
`data_type(**item)`.  The file is modelled at the JSON data level: a
backing file is either missing, present-but-not-JSON, or a parsed JSON
array of objects (assoc lists of key/value pairs).  The embedding types
the JSON values it needs (`jstr`/`jbool`); objects carrying other JSON
shapes in a record field are outside the typed model.  Python's
`data_type(**item)` accepts an object exactly when its keys are keyword
parameters of the constructor and every parameter without a default is
present; an unexpected or missing key raises TypeError (distinct from
the ValueError raised for unparsable JSON). -/

/-- JSON values occurring in the three record kinds' fields. -/
inductive JVal
  | jstr (s : String)
  | jbool (b : Bool)
  deriving DecidableEq, Repr

/-- A parsed JSON object: key/value pairs in file order. -/
abbrev JObj := List (String × JVal)

/-- The contents of a backing file, as `load_data`'s `try` block sees
them: absent (FileNotFoundError), present but not syntactically valid
JSON (json.JSONDecodeError), or a parsed JSON array of objects. -/
inductive FileState
  | missing
  | corrupt
  | jsonArr (arr : List JObj)
  deriving DecidableEq, Repr

/-- How a `load_data` call can fail: the explicit
`ValueError("File is not a valid JSON.")` (the spec's DataFormatError),
or the TypeError escaping `data_type(**item)` on a key mismatch. -/
inductive LoadError
  | dataFormatError
  | typeError
  deriving DecidableEq, Repr

/-- Encodes a Book as `item.__dict__`: its fields in assignment order. -/
def encodeBook (b : Book) : JObj :=
  [("title", .jstr b.title), ("author", .jstr b.author),
   ("isbn", .jstr b.isbn), ("available", .jbool b.available)]

/-- Decodes `Book(**item)`: every key must be a constructor parameter and the
three defaultless parameters must be present; `available` defaults to
true. -/
def decodeBook (obj : JObj) : Option Book :=
  if obj.all (fun p => p.1 == "title" || p.1 == "author" ||
      p.1 == "isbn" || p.1 == "available") then
    match obj.lookup "title", obj.lookup "author", obj.lookup "isbn" with
    | some (.jstr t), some (.jstr a), some (.jstr i) =>
      match obj.lookup "available" with
      | some (.jbool v) => some ⟨t, a, i, v⟩
      | none => some ⟨t, a, i, true⟩
      | some _ => none
    | _, _, _ => none
  else none

/-- Encodes a User as `item.__dict__`. -/
def encodeUser (u : User) : JObj :=
  [("name", .jstr u.name), ("user_id", .jstr u.user_id)]

/-- Decodes `User(**item)`: both parameters required, nothing else accepted. -/
def decodeUser (obj : JObj) : Option User :=
  if obj.all (fun p => p.1 == "name" || p.1 == "user_id") then
    match obj.lookup "name", obj.lookup "user_id" with
    | some (.jstr n), some (.jstr uid) => some ⟨n, uid⟩
    | _, _ => none
  else none

/-- Encodes a CheckoutRecord as `item.__dict__`. -/
def encodeCheckout (c : CheckoutRecord) : JObj :=
  [("user_id", .jstr c.user_id), ("isbn", .jstr c.isbn)]

/-- Decodes `CheckoutRecord(**item)`: both parameters required, nothing else
accepted. -/
def decodeCheckout (obj : JObj) : Option CheckoutRecord :=
  if obj.all (fun p => p.1 == "user_id" || p.1 == "isbn") then
    match obj.lookup "user_id", obj.lookup "isbn" with
    | some (.jstr uid), some (.jstr i) => some ⟨uid, i⟩
    | _, _ => none
  else none

/-- Runs the `[data_type(**item) for item in data]` comprehension: first
failure aborts the whole load with a TypeError. -/
def decodeAll {α : Type} (dec : JObj → Option α) :
    List JObj → Except LoadError (List α)
  | [] => .ok []
  | obj :: rest =>
    match dec obj with
    | some a => (decodeAll dec rest).map (fun l => a :: l)
    | none => .error .typeError

/-- Embeds `StorageManager.load_data`, generic over the record kind's decoder:
missing file → empty list; unparsable file → ValueError; parsed array →
decode every object. -/
def load_data {α : Type} (dec : JObj → Option α) :
    FileState → Except LoadError (List α)
  | .missing => .ok []
  | .corrupt => .error .dataFormatError
  | .jsonArr arr => decodeAll dec arr

/-- Embeds `StorageManager.save_data`, generic over the record kind's encoder:
the file now holds the JSON array of the records' `__dict__`s. -/
def save_data {α : Type} (enc : α → JObj) (data : List α) : FileState :=
  .jsonArr (data.map enc)

/-! Derived notions used by the statements: the ledger invariant of
spec §3, reachability of ledger states, and iterated `add_book` calls. -/

/-- Ledger invariant from the spec's data model: at most one active
checkout record per isbn and at most three per user id. -/
def LedgerInv (cs : List CheckoutRecord) : Prop :=
  (∀ i, (cs.filter (fun c => c.isbn == i)).length ≤ 1) ∧
  (∀ u, (cs.filter (fun c => c.user_id == u)).length ≤ 3)

/-- Ledger states reachable from an empty checkout ledger (over an
arbitrary initial book registry) by any sequence of `checkout_book` and
`checkin_book` calls. -/
inductive Reachable : LedgerState → Prop
  | init (books : List Book) : Reachable ⟨books, []⟩
  | checkout (s : LedgerState) (u i : String) :
      Reachable s → Reachable (checkout_book s u i).2
  | checkin (s : LedgerState) (i : String) :
      Reachable s → Reachable (checkin_book s i).2

/-- Runs a sequence of `add_book` calls, each given as
(title, author, isbn). -/
def runAdds (books : List Book) :
    List (String × String × String) → List Book
  | [] => books
  | (t, a, i) :: ops => runAdds (add_book books t a i).2 ops

/-! Helper lemmas about the embedded operations. -/

lemma any_isbn_iff (cs : List CheckoutRecord) (i : String) :
    cs.any (fun c => c.isbn == i) = true ↔ ∃ c ∈ cs, c.isbn = i := by
  simp [List.any_eq_true]

lemma any_isbn_eq_false (cs : List CheckoutRecord) (i : String) :
    cs.any (fun c => c.isbn == i) = false ↔ ∀ c ∈ cs, c.isbn ≠ i := by
  simp [List.any_eq_false]

lemma find_book_of_split (m₁ : List Book) (b : Book) (m₂ : List Book)
    (i : String) (h₁ : ∀ x ∈ m₁, x.isbn ≠ i) (hb : b.isbn = i) :
    find_book_by_isbn (m₁ ++ b :: m₂) i = some b := by
  induction m₁ with
  | nil =>
    show List.find? (fun x => x.isbn == i) (b :: m₂) = some b
    rw [List.find?_cons_of_pos _ (by simp [hb])]
  | cons x xs ih =>
    have hx : x.isbn ≠ i := h₁ x (List.mem_cons_self x xs)
    have hrec := ih (fun y hy => h₁ y (List.mem_cons_of_mem x hy))
    show List.find? (fun y => y.isbn == i) (x :: (xs ++ b :: m₂)) = some b
    rw [List.find?_cons_of_neg _ (by simp [hx])]
    exact hrec

lemma find_book_none_iff (books : List Book) (i : String) :
    find_book_by_isbn books i = none ↔ ∀ b ∈ books, b.isbn ≠ i := by
  simp [find_book_by_isbn, List.find?_eq_none]

lemma set_available_of_split (m₁ : List Book) (b : Book) (m₂ : List Book)
    (i : String) (v : Bool) (h₁ : ∀ x ∈ m₁, x.isbn ≠ i) (hb : b.isbn = i) :
    set_available (m₁ ++ b :: m₂) i v
      = m₁ ++ ⟨b.title, b.author, b.isbn, v⟩ :: m₂ := by
  induction m₁ with
  | nil => simp [set_available, hb]
  | cons x xs ih =>
    have hx : x.isbn ≠ i := h₁ x (List.mem_cons_self x xs)
    simp [set_available, hx, ih (fun y hy => h₁ y (List.mem_cons_of_mem x hy))]

lemma set_available_of_none (books : List Book) (i : String) (v : Bool)
    (h : ∀ b ∈ books, b.isbn ≠ i) : set_available books i v = books := by
  induction books with
  | nil => rfl
  | cons x xs ih =>
    have hx : x.isbn ≠ i := h x (List.mem_cons_self x xs)
    simp [set_available, hx, ih (fun y hy => h y (List.mem_cons_of_mem x hy))]

lemma remove_first_of_split (l₁ : List CheckoutRecord) (c : CheckoutRecord)
    (l₂ : List CheckoutRecord) (i : String)
    (h₁ : ∀ x ∈ l₁, x.isbn ≠ i) (hc : c.isbn = i) :
    remove_first_isbn (l₁ ++ c :: l₂) i = l₁ ++ l₂ := by
  induction l₁ with
  | nil => simp [remove_first_isbn, hc]
  | cons x xs ih =>
    have hx : x.isbn ≠ i := h₁ x (List.mem_cons_self x xs)
    simp [remove_first_isbn, hx,
      ih (fun y hy => h₁ y (List.mem_cons_of_mem x hy))]

lemma remove_first_sublist (cs : List CheckoutRecord) (i : String) :
    List.Sublist (remove_first_isbn cs i) cs := by
  induction cs with
  | nil => exact List.Sublist.refl []
  | cons c rest ih =>
    by_cases h : c.isbn = i
    · simp only [remove_first_isbn, if_pos (by simp [h] : (c.isbn == i) = true)]
      exact List.sublist_cons_self c rest
    · simp only [remove_first_isbn, if_neg (by simp [h] : ¬(c.isbn == i) = true)]
      exact ih.cons₂ c

lemma exists_split_first (cs : List CheckoutRecord) (i : String)
    (h : ∃ c ∈ cs, c.isbn = i) :
    ∃ l₁ c l₂, cs = l₁ ++ c :: l₂ ∧ c.isbn = i ∧ ∀ x ∈ l₁, x.isbn ≠ i := by
  induction cs with
  | nil => simp at h
  | cons x xs ih =>
    by_cases hx : x.isbn = i
    · exact ⟨[], x, xs, rfl, hx, by simp⟩
    · obtain ⟨c, hc, hci⟩ := h
      rcases List.mem_cons.mp hc with rfl | hmem
      · exact absurd hci hx
      · obtain ⟨l₁, c', l₂, heq, hc'i, hl₁⟩ := ih ⟨c, hmem, hci⟩
        exact ⟨x :: l₁, c', l₂, by simp [heq], hc'i, by
          intro y hy
          rcases List.mem_cons.mp hy with rfl | hy'
          · exact hx
          · exact hl₁ y hy'⟩

lemma add_book_dup (books : List Book) (t a i : String)
    (h : ∃ b ∈ books, b.isbn = i) : add_book books t a i = (false, books) := by
  have : books.any (fun b => b.isbn == i) = true := by
    simpa [List.any_eq_true] using h
  simp [add_book, this]

lemma add_book_fresh (books : List Book) (t a i : String)
    (h : ∀ b ∈ books, b.isbn ≠ i) :
    add_book books t a i = (true, books ++ [⟨t, a, i, true⟩]) := by
  have : books.any (fun b => b.isbn == i) = false := by
    simpa [List.any_eq_false] using h
  simp [add_book, this]

lemma add_user_fresh (users : List User) (n uid : String)
    (h : ∀ u ∈ users, u.user_id ≠ uid) :
    add_user users n uid = (true, users ++ [⟨n, uid⟩]) := by
  have : users.any (fun u => u.user_id == uid) = false := by
    simpa [List.any_eq_false] using h
  simp [add_user, this]

lemma add_user_dup (users : List User) (n uid : String)
    (h : ∃ u ∈ users, u.user_id = uid) :
    add_user users n uid = (false, users) := by
  have : users.any (fun u => u.user_id == uid) = true := by
    simpa [List.any_eq_true] using h
  simp [add_user, this]

lemma checkout_book_of_out (s : LedgerState) (u i : String)
    (h : ∃ c ∈ s.checkouts, c.isbn = i) :
    checkout_book s u i = (false, s) := by
  have hA : s.checkouts.any (fun c => c.isbn == i) = true :=
    (any_isbn_iff _ _).mpr h
  simp [checkout_book, hA]

lemma checkout_book_of_limit (s : LedgerState) (u i : String)
    (h1 : ∀ c ∈ s.checkouts, c.isbn ≠ i)
    (h2 : 3 ≤ (s.checkouts.filter (fun c => c.user_id == u)).length) :
    checkout_book s u i = (false, s) := by
  have hA : s.checkouts.any (fun c => c.isbn == i) = false :=
    (any_isbn_eq_false _ _).mpr h1
  simp [checkout_book, hA, h2]

lemma checkout_book_of_no_book (s : LedgerState) (u i : String)
    (h1 : ∀ c ∈ s.checkouts, c.isbn ≠ i)
    (h2 : (s.checkouts.filter (fun c => c.user_id == u)).length < 3)
    (h3 : find_book_by_isbn s.books i = none) :
    checkout_book s u i = (false, s) := by
  have hA : s.checkouts.any (fun c => c.isbn == i) = false :=
    (any_isbn_eq_false _ _).mpr h1
  have h2' := Nat.not_le.mpr h2
  simp [checkout_book, hA, h2', h3]

lemma checkout_book_of_unavailable (s : LedgerState) (u i : String)
    (b : Book) (h1 : ∀ c ∈ s.checkouts, c.isbn ≠ i)
    (h2 : (s.checkouts.filter (fun c => c.user_id == u)).length < 3)
    (h3 : find_book_by_isbn s.books i = some b)
    (h4 : b.available = false) :
    checkout_book s u i = (false, s) := by
  have hA : s.checkouts.any (fun c => c.isbn == i) = false :=
    (any_isbn_eq_false _ _).mpr h1
  have h2' := Nat.not_le.mpr h2
  simp [checkout_book, hA, h2', h3, h4]

lemma checkout_book_success (s : LedgerState) (u i : String) (b : Book)
    (h1 : ∀ c ∈ s.checkouts, c.isbn ≠ i)
    (h2 : (s.checkouts.filter (fun c => c.user_id == u)).length < 3)
    (h3 : find_book_by_isbn s.books i = some b)
    (h4 : b.available = true) :
    checkout_book s u i =
      (true, ⟨set_available s.books i false, s.checkouts ++ [⟨u, i⟩]⟩) := by
  have hA : s.checkouts.any (fun c => c.isbn == i) = false :=
    (any_isbn_eq_false _ _).mpr h1
  have h2' := Nat.not_le.mpr h2
  simp [checkout_book, hA, h2', h3, h4]

lemma checkout_book_cases (s : LedgerState) (u i : String) :
    checkout_book s u i = (false, s) ∨
    ((∀ c ∈ s.checkouts, c.isbn ≠ i) ∧
     (s.checkouts.filter (fun c => c.user_id == u)).length < 3 ∧
     (∃ b, find_book_by_isbn s.books i = some b ∧ b.available = true) ∧
     checkout_book s u i =
       (true, ⟨set_available s.books i false,
               s.checkouts ++ [⟨u, i⟩]⟩)) := by
  by_cases hA : s.checkouts.any (fun c => c.isbn == i) = true
  · exact .inl (checkout_book_of_out s u i ((any_isbn_iff _ _).mp hA))
  · have hA' : s.checkouts.any (fun c => c.isbn == i) = false :=
      Bool.eq_false_iff.mpr hA
    have hno := (any_isbn_eq_false _ _).mp hA'
    by_cases hL : 3 ≤ (s.checkouts.filter (fun c => c.user_id == u)).length
    · exact .inl (checkout_book_of_limit s u i hno hL)
    · have hL' := Nat.lt_of_not_le hL
      cases hF : find_book_by_isbn s.books i with
      | none => exact .inl (checkout_book_of_no_book s u i hno hL' hF)
      | some b =>
        cases hAv : b.available with
        | false =>
          exact .inl (checkout_book_of_unavailable s u i b hno hL' hF hAv)
        | true =>
          exact .inr ⟨hno, hL', ⟨b, rfl, hAv⟩,
            checkout_book_success s u i b hno hL' hF hAv⟩

lemma checkin_book_checkouts_cases (s : LedgerState) (i : String) :
    (checkin_book s i).2.checkouts = s.checkouts ∨
    (checkin_book s i).2.checkouts = remove_first_isbn s.checkouts i := by
  by_cases h : s.checkouts.any (fun c => c.isbn == i) = true
  · exact .inr (by simp [checkin_book, h])
  · exact .inl (by simp [checkin_book, h])

lemma LedgerInv_nil : LedgerInv [] :=
  ⟨fun i => by simp, fun u => by simp⟩

lemma LedgerInv_append (cs : List CheckoutRecord) (u i : String)
    (hinv : LedgerInv cs) (hno : ∀ c ∈ cs, c.isbn ≠ i)
    (hcnt : (cs.filter (fun c => c.user_id == u)).length < 3) :
    LedgerInv (cs ++ [⟨u, i⟩]) := by
  constructor
  · intro i'
    rw [List.filter_append]
    by_cases hi : i = i'
    · subst hi
      have hnil : cs.filter (fun c => c.isbn == i) = [] :=
        List.filter_eq_nil_iff.mpr (fun c hc => by simp [hno c hc])
      simp [hnil]
    · have hone : ([(⟨u, i⟩ : CheckoutRecord)].filter
          (fun c => c.isbn == i')) = [] := by simp [hi]
      rw [hone, List.append_nil]
      exact hinv.1 i'
  · intro u'
    rw [List.filter_append]
    by_cases hu : u = u'
    · subst hu
      have hone : ([(⟨u, i⟩ : CheckoutRecord)].filter
          (fun c => c.user_id == u)) = [⟨u, i⟩] := by simp
      rw [hone, List.length_append]
      simpa using Nat.lt_succ_iff.mp hcnt
    · have hone : ([(⟨u, i⟩ : CheckoutRecord)].filter
          (fun c => c.user_id == u')) = [] := by simp [hu]
      rw [hone, List.append_nil]
      exact hinv.2 u'

lemma LedgerInv_sublist (cs cs' : List CheckoutRecord)
    (h : List.Sublist cs' cs) (hinv : LedgerInv cs) : LedgerInv cs' :=
  ⟨fun i => le_trans (List.Sublist.length_le (h.filter _)) (hinv.1 i),
   fun u => le_trans (List.Sublist.length_le (h.filter _)) (hinv.2 u)⟩

lemma find_book_append_of_some (books l₂ : List Book) (i : String)
    (b : Book) (h : find_book_by_isbn books i = some b) :
    find_book_by_isbn (books ++ l₂) i = some b := by
  unfold find_book_by_isbn at h ⊢
  rw [List.find?_append, h]
  rfl

lemma find_runAdds (ops : List (String × String × String))
    (books : List Book) (i : String) (b : Book)
    (h : find_book_by_isbn books i = some b) :
    find_book_by_isbn (runAdds books ops) i = some b := by
  induction ops generalizing books with
  | nil => exact h
  | cons op rest ih =>
    obtain ⟨t, a, i'⟩ := op
    show find_book_by_isbn (runAdds (add_book books t a i').2 rest) i = some b
    apply ih
    by_cases hd : books.any (fun x => x.isbn == i') = true
    · simpa [add_book, hd] using h
    · have hstep : (add_book books t a i').2 = books ++ [⟨t, a, i', true⟩] := by
        simp [add_book, hd]
      rw [hstep]
      exact find_book_append_of_some books _ i b h

lemma decode_encode_book (b : Book) : decodeBook (encodeBook b) = some b :=
  rfl

lemma decode_encode_user (u : User) : decodeUser (encodeUser u) = some u :=
  rfl

lemma decode_encode_checkout (c : CheckoutRecord) :
    decodeCheckout (encodeCheckout c) = some c :=
  rfl

lemma decodeAll_map {α : Type} (dec : JObj → Option α) (enc : α → JObj)
    (h : ∀ x, dec (enc x) = some x) (l : List α) :
    decodeAll dec (l.map enc) = .ok l := by
  induction l with
  | nil => rfl
  | cons x xs ih => simp [decodeAll, h x, ih, Except.map]

/-! Claim theorems. -/

/-- C1: `checkout_book` performs its checks in the spec's exact order,
each a short-circuit rejection that returns false without mutating
anything: (1) the isbn is already in some checkout record; (2) the user
already has at least 3 checkout records; (3) no book with the isbn
exists, or the (first) matching book is unavailable.  When every check
passes, that book's available flag is set to false, a new
`CheckoutRecord(user_id, isbn)` is appended to the ledger, and the call
returns true. -/
theorem checkout_book_check_order (s : LedgerState) (u i : String) :
    ((∃ c ∈ s.checkouts, c.isbn = i) → checkout_book s u i = (false, s)) ∧
    ((∀ c ∈ s.checkouts, c.isbn ≠ i) →
      3 ≤ (list_user_checkouts s.checkouts u).length →
      checkout_book s u i = (false, s)) ∧
    ((∀ c ∈ s.checkouts, c.isbn ≠ i) →
      (list_user_checkouts s.checkouts u).length < 3 →
      (find_book_by_isbn s.books i = none ∨
        (∃ b, find_book_by_isbn s.books i = some b ∧ b.available = false)) →
      checkout_book s u i = (false, s)) ∧
    ((∀ c ∈ s.checkouts, c.isbn ≠ i) →
      (list_user_checkouts s.checkouts u).length < 3 →
      ∀ m₁ b m₂, s.books = m₁ ++ b :: m₂ → (∀ x ∈ m₁, x.isbn ≠ i) →
        b.isbn = i → b.available = true →
        checkout_book s u i =
          (true, ⟨m₁ ++ ⟨b.title, b.author, b.isbn, false⟩ :: m₂,
                  s.checkouts ++ [⟨u, i⟩]⟩)) := by
  refine ⟨checkout_book_of_out s u i, ?_, ?_, ?_⟩
  · intro h1 h2
    exact checkout_book_of_limit s u i h1 h2
  · intro h1 h2 h3
    rcases h3 with h3 | ⟨b, hb, hba⟩
    · exact checkout_book_of_no_book s u i h1 h2 h3
    · exact checkout_book_of_unavailable s u i b h1 h2 hb hba
  · intro h1 h2 m₁ b m₂ hsplit hm₁ hbi hba
    have hf : find_book_by_isbn s.books i = some b := by
      rw [hsplit]
      exact find_book_of_split m₁ b m₂ i hm₁ hbi
    have hsa : set_available s.books i false
        = m₁ ++ ⟨b.title, b.author, b.isbn, false⟩ :: m₂ := by
      rw [hsplit]
      exact set_available_of_split m₁ b m₂ i false hm₁ hbi
    rw [checkout_book_success s u i b h1 h2 hf hba, hsa]

/-- Witness for C1: on a registry holding one available book "111" and
an empty ledger, checking it out succeeds, flips its flag, and appends
the record. -/
theorem checkout_book_check_order_witness :
    checkout_book ⟨[⟨"Dune", "Herbert", "111", true⟩], []⟩ "u1" "111"
      = (true, ⟨[⟨"Dune", "Herbert", "111", false⟩], [⟨"u1", "111"⟩]⟩) := by
  have h := (checkout_book_check_order
      ⟨[⟨"Dune", "Herbert", "111", true⟩], []⟩ "u1" "111").2.2.2
      (by decide) (by decide) [] ⟨"Dune", "Herbert", "111", true⟩ [] rfl
      (by decide) rfl rfl
  simpa using h

/-- C10: whenever `checkout_book` returns false the call was atomic:
the returned state (checkout ledger and book registry, every field of
every record) is exactly the input state. -/
theorem checkout_book_failure_atomic (s : LedgerState) (u i : String)
    (s' : LedgerState) (h : checkout_book s u i = (false, s')) :
    s' = s := by
  rcases checkout_book_cases s u i with hc | ⟨-, -, -, hc⟩
  · rw [hc] at h
    injection h with _ h2
    exact h2.symm
  · rw [hc] at h
    injection h with h1 _
    exact Bool.noConfusion h1

/-- Witness for C10: a rejected checkout (isbn already out) leaves the
concrete state unchanged. -/
theorem checkout_book_failure_atomic_witness :
    (checkout_book ⟨[], [⟨"u1", "111"⟩]⟩ "u2" "111").2
      = ⟨[], [⟨"u1", "111"⟩]⟩ :=
  checkout_book_failure_atomic ⟨[], [⟨"u1", "111"⟩]⟩ "u2" "111"
    (checkout_book ⟨[], [⟨"u1", "111"⟩]⟩ "u2" "111").2 (by decide)

/-- C2: every ledger state reachable from an empty ledger by any
sequence of `checkout_book` and `checkin_book` calls has at most one
checkout record per isbn and at most three per user id; and a user who
holds exactly 3 records is rejected (false) on a further checkout call,
regardless of isbn. -/
theorem reachable_ledger_invariant :
    (∀ s, Reachable s → LedgerInv s.checkouts) ∧
    (∀ s u i, (list_user_checkouts s.checkouts u).length = 3 →
      (checkout_book s u i).1 = false) := by
  constructor
  · intro s hr
    induction hr with
    | init books => exact LedgerInv_nil
    | checkout s u i _ ih =>
      rcases checkout_book_cases s u i with hc | ⟨hno, hcnt, -, hc⟩
      · rw [hc]
        exact ih
      · rw [hc]
        exact LedgerInv_append s.checkouts u i ih hno hcnt
    | checkin s i _ ih =>
      rcases checkin_book_checkouts_cases s i with hc | hc
      · rw [hc]
        exact ih
      · rw [hc]
        exact LedgerInv_sublist _ _ (remove_first_sublist s.checkouts i) ih
  · intro s u i h
    have h3 : 3 ≤ (s.checkouts.filter (fun c => c.user_id == u)).length := by
      simp only [list_user_checkouts] at h
      exact le_of_eq h.symm
    by_cases hA : s.checkouts.any (fun c => c.isbn == i) = true
    · simp [checkout_book, hA]
    · simp [checkout_book, Bool.eq_false_iff.mpr hA, h3]

/-- Witness for C2: the empty ledger satisfies the invariant, and a
user with 3 concrete records is rejected on a 4th checkout even though
the requested book exists and is available. -/
theorem reachable_ledger_invariant_witness :
    LedgerInv (LedgerState.mk [] []).checkouts ∧
    (checkout_book
      ⟨[⟨"d", "h", "444", true⟩],
       [⟨"u1", "111"⟩, ⟨"u1", "222"⟩, ⟨"u1", "333"⟩]⟩ "u1" "444").1
      = false :=
  ⟨reachable_ledger_invariant.1 ⟨[], []⟩ (Reachable.init []),
   reachable_ledger_invariant.2
    ⟨[⟨"d", "h", "444", true⟩],
     [⟨"u1", "111"⟩, ⟨"u1", "222"⟩, ⟨"u1", "333"⟩]⟩ "u1" "444" (by decide)⟩

/-- C3: `add_book` with an isbn equal to an existing book's returns
false and leaves the collection unchanged; with a fresh isbn it appends
a new book with available = true and returns true; and a book so added
stays retrievable by `find_book_by_isbn` after any further sequence of
`add_book` calls. -/
theorem add_book_registry_spec :
    (∀ books t a i, (∃ b ∈ books, b.isbn = i) →
        add_book books t a i = (false, books)) ∧
    (∀ books t a i, (∀ b ∈ books, b.isbn ≠ i) →
        add_book books t a i = (true, books ++ [⟨t, a, i, true⟩])) ∧
    (∀ books t a i ops, (∀ b ∈ books, b.isbn ≠ i) →
        find_book_by_isbn (runAdds (add_book books t a i).2 ops) i
          = some ⟨t, a, i, true⟩) := by
  refine ⟨add_book_dup, add_book_fresh, ?_⟩
  intro books t a i ops h
  apply find_runAdds
  rw [add_book_fresh books t a i h]
  exact find_book_of_split books ⟨t, a, i, true⟩ [] i h rfl

/-- Witness for C3: a duplicate isbn is rejected, a fresh one is
appended, and the added book is still found after one more add. -/
theorem add_book_registry_spec_witness :
    add_book [⟨"Dune", "Herbert", "111", true⟩] "X" "Y" "111"
      = (false, [⟨"Dune", "Herbert", "111", true⟩]) ∧
    add_book [] "Dune" "Herbert" "111"
      = (true, [⟨"Dune", "Herbert", "111", true⟩]) ∧
    find_book_by_isbn
      (runAdds (add_book [] "Dune" "Herbert" "111").2
        [("LOTR", "Tolkien", "222")]) "111"
      = some ⟨"Dune", "Herbert", "111", true⟩ := by
  refine ⟨?_, ?_, ?_⟩
  · exact add_book_registry_spec.1 [⟨"Dune", "Herbert", "111", true⟩]
      "X" "Y" "111" (by decide)
  · simpa using add_book_registry_spec.2.1 [] "Dune" "Herbert" "111"
      (by decide)
  · exact add_book_registry_spec.2.2 [] "Dune" "Herbert" "111"
      [("LOTR", "Tolkien", "222")] (by decide)

/-- C4: the claimed no-mutation-on-collision holds for the book
registry but not for the user registry.  At the input below,
`update_book` rejects the isbn collision leaving both books untouched,
while `update_user` — which applies a provided new name before checking
the new-id collision — returns false with user "1"'s name already
changed to "zoe" in the in-memory collection. -/
theorem update_collision_book_ok_user_mutates :
    update_book [⟨"t1", "a1", "1", true⟩, ⟨"t2", "a2", "2", true⟩] "1"
        (some "z") none (some "2")
      = (false, [⟨"t1", "a1", "1", true⟩, ⟨"t2", "a2", "2", true⟩]) ∧
    update_user [⟨"alice", "1"⟩, ⟨"bob", "2"⟩] "1" (some "zoe") (some "2")
      = (false, [⟨"zoe", "1"⟩, ⟨"bob", "2"⟩]) := by
  decide

/-- C5: under the at-most-one-record-per-isbn invariant, `checkin_book`
returns true exactly when a record with the isbn exists; then that
record (the first match) is removed — afterwards no user's checkout
list contains the isbn — and if the registry holds a matching book, the
first such book's available flag is set to true with all other books
untouched, while a registry without the book is left unchanged; when no
record matches, the call returns false and the whole state is
untouched. -/
theorem checkin_book_spec (s : LedgerState) (i : String)
    (hinv : (s.checkouts.filter (fun c => c.isbn == i)).length ≤ 1) :
    ((checkin_book s i).1 = true ↔ ∃ c ∈ s.checkouts, c.isbn = i) ∧
    ((∃ c ∈ s.checkouts, c.isbn = i) →
      (∃ l₁ c l₂, s.checkouts = l₁ ++ c :: l₂ ∧ c.isbn = i ∧
        (∀ x ∈ l₁, x.isbn ≠ i) ∧
        (checkin_book s i).2.checkouts = l₁ ++ l₂) ∧
      (∀ u, ∀ c ∈ list_user_checkouts (checkin_book s i).2.checkouts u,
        c.isbn ≠ i) ∧
      (∀ m₁ b m₂, s.books = m₁ ++ b :: m₂ → (∀ x ∈ m₁, x.isbn ≠ i) →
        b.isbn = i →
        (checkin_book s i).2.books
          = m₁ ++ ⟨b.title, b.author, b.isbn, true⟩ :: m₂) ∧
      ((∀ b ∈ s.books, b.isbn ≠ i) →
        (checkin_book s i).2.books = s.books)) ∧
    ((∀ c ∈ s.checkouts, c.isbn ≠ i) → checkin_book s i = (false, s)) := by
  by_cases hA : s.checkouts.any (fun c => c.isbn == i) = true
  · have hex := (any_isbn_iff _ _).mp hA
    obtain ⟨l₁, c₀, l₂, hsp, hci, hl₁⟩ := exists_split_first s.checkouts i hex
    have hrm : (checkin_book s i).2.checkouts
        = remove_first_isbn s.checkouts i := by
      simp [checkin_book, hA]
    have hrm2 : remove_first_isbn s.checkouts i = l₁ ++ l₂ := by
      rw [hsp]
      exact remove_first_of_split l₁ c₀ l₂ i hl₁ hci
    have hl₂ : ∀ x ∈ l₂, x.isbn ≠ i := by
      rw [hsp, List.filter_append] at hinv
      have hf₁ : l₁.filter (fun c => c.isbn == i) = [] :=
        List.filter_eq_nil_iff.mpr (fun x hx => by simp [hl₁ x hx])
      have hfc : (c₀ :: l₂).filter (fun c => c.isbn == i)
          = c₀ :: l₂.filter (fun c => c.isbn == i) := by
        simp [List.filter_cons, hci]
      rw [hf₁, hfc] at hinv
      have hlen : (l₂.filter (fun c => c.isbn == i)).length = 0 := by
        simp only [List.nil_append, List.length_cons] at hinv
        omega
      have hnil := List.length_eq_zero.mp hlen
      intro x hx
      have := List.filter_eq_nil_iff.mp hnil x hx
      simpa using this
    refine ⟨⟨fun _ => hex, fun _ => by simp [checkin_book, hA]⟩,
      fun _ => ?_, ?_⟩
    · refine ⟨⟨l₁, c₀, l₂, hsp, hci, hl₁, by rw [hrm, hrm2]⟩, ?_, ?_, ?_⟩
      · intro u c' hc'
        simp only [list_user_checkouts] at hc'
        have hc'' : c' ∈ l₁ ++ l₂ := by
          have hmem := (List.mem_filter.mp hc').1
          rw [hrm, hrm2] at hmem
          exact hmem
        rcases List.mem_append.mp hc'' with h | h
        · exact hl₁ c' h
        · exact hl₂ c' h
      · intro m₁ b m₂ hbs hm₁ hbi
        have hf : find_book_by_isbn s.books i = some b := by
          rw [hbs]
          exact find_book_of_split m₁ b m₂ i hm₁ hbi
        have hsb : (checkin_book s i).2.books
            = set_available s.books i true := by
          simp [checkin_book, hA, hf]
        rw [hsb, hbs]
        exact set_available_of_split m₁ b m₂ i true hm₁ hbi
      · intro hnb
        have hf : find_book_by_isbn s.books i = none :=
          (find_book_none_iff _ _).mpr hnb
        simp [checkin_book, hA, hf]
    · intro hno
      obtain ⟨c, hc, hci'⟩ := hex
      exact absurd hci' (hno c hc)
  · have hA' : s.checkouts.any (fun c => c.isbn == i) = false :=
      Bool.eq_false_iff.mpr hA
    have hno := (any_isbn_eq_false _ _).mp hA'
    refine ⟨⟨?_, ?_⟩, ?_, fun _ => by simp [checkin_book, hA']⟩
    · intro h1
      simp [checkin_book, hA'] at h1
    · intro hex
      obtain ⟨c, hc, hci⟩ := hex
      exact absurd hci (hno c hc)
    · intro hex
      obtain ⟨c, hc, hci⟩ := hex
      exact absurd hci (hno c hc)

/-- Witness for C5: checking in the one outstanding record for isbn
"111" succeeds and restores the book's availability. -/
theorem checkin_book_spec_witness :
    (checkin_book ⟨[⟨"d", "h", "111", false⟩], [⟨"u1", "111"⟩]⟩ "111").1
      = true ∧
    (checkin_book ⟨[⟨"d", "h", "111", false⟩], [⟨"u1", "111"⟩]⟩ "111").2.books
      = [⟨"d", "h", "111", true⟩] := by
  have T := checkin_book_spec
    ⟨[⟨"d", "h", "111", false⟩], [⟨"u1", "111"⟩]⟩ "111" (by decide)
  refine ⟨T.1.mpr (by decide), ?_⟩
  have hb := (T.2.1 (by decide)).2.2.1 [] ⟨"d", "h", "111", false⟩ []
    rfl (by decide) rfl
  simpa using hb

/-- C6: for every list of records of one kind, `save_data` followed by
a fresh `load_data` of the same kind yields exactly the saved
collection — same number of records, same field values, same order. -/
theorem save_load_round_trip :
    (∀ bs : List Book,
        load_data decodeBook (save_data encodeBook bs) = .ok bs) ∧
    (∀ us : List User,
        load_data decodeUser (save_data encodeUser us) = .ok us) ∧
    (∀ cs : List CheckoutRecord,
        load_data decodeCheckout (save_data encodeCheckout cs) = .ok cs) :=
  ⟨fun bs => decodeAll_map decodeBook encodeBook decode_encode_book bs,
   fun us => decodeAll_map decodeUser encodeUser decode_encode_user us,
   fun cs =>
     decodeAll_map decodeCheckout encodeCheckout decode_encode_checkout cs⟩

/-- C7: for every record kind, `load_data` on a missing backing file
returns the empty collection rather than an error, and on a present
file whose contents are not syntactically valid JSON it fails with the
DataFormatError (the `ValueError` the Python code raises on
`json.JSONDecodeError`). -/
theorem load_data_missing_corrupt (α : Type) (dec : JObj → Option α) :
    load_data dec FileState.missing = .ok ([] : List α) ∧
    load_data dec FileState.corrupt
      = .error LoadError.dataFormatError :=
  ⟨rfl, rfl⟩

/-- C8 counterexample: the registries perform no empty-input
validation — at these concrete inputs, `add_book` with an empty-string
isbn and `add_user` with an empty-string user id both return true and
append the record, where the claim asserts they return false. -/
theorem add_empty_key_cex :
    add_book [] "Dune" "Herbert" ""
      = (true, [⟨"Dune", "Herbert", "", true⟩]) ∧
    add_user [] "Ann" "" = (true, [⟨"Ann", ""⟩]) := by
  decide

/-- C8 amended: duplicate and not-found keys are reported as a boolean
false, but empty-string input is not itself validated: `add_book` with
the empty isbn (and `add_user` with the empty user id) behaves exactly
like any other key — rejected only when some existing record already
carries the empty key, otherwise accepted with the record appended. -/
theorem add_empty_key_not_validated :
    (∀ books t a, (∀ b ∈ books, b.isbn ≠ "") →
        add_book books t a "" = (true, books ++ [⟨t, a, "", true⟩])) ∧
    (∀ books t a, (∃ b ∈ books, b.isbn = "") →
        add_book books t a "" = (false, books)) ∧
    (∀ users n, (∀ u ∈ users, u.user_id ≠ "") →
        add_user users n "" = (true, users ++ [⟨n, ""⟩])) ∧
    (∀ users n, (∃ u ∈ users, u.user_id = "") →
        add_user users n "" = (false, users)) :=
  ⟨fun books t a h => add_book_fresh books t a "" h,
   fun books t a h => add_book_dup books t a "" h,
   fun users n h => add_user_fresh users n "" h,
   fun users n h => add_user_dup users n "" h⟩

/-- Witness for the amended C8: a concrete registry already holding an
empty-isbn book rejects another empty-isbn add, and an empty user
registry accepts an empty user id. -/
theorem add_empty_key_not_validated_witness :
    add_book [⟨"x", "y", "", true⟩] "t" "a" ""
      = (false, [⟨"x", "y", "", true⟩]) ∧
    add_user [] "Bea" "" = (true, [⟨"Bea", ""⟩]) := by
  refine ⟨?_, ?_⟩
  · exact add_empty_key_not_validated.2.1 [⟨"x", "y", "", true⟩] "t" "a"
      (by decide)
  · simpa using add_empty_key_not_validated.2.2.1 [] "Bea" (by decide)

lemma decodeBook_extra_key (obj : JObj) (p : String × JVal) (hp : p ∈ obj)
    (h1 : p.1 ≠ "title") (h2 : p.1 ≠ "author") (h3 : p.1 ≠ "isbn")
    (h4 : p.1 ≠ "available") : decodeBook obj = none := by
  have hall : ¬ (obj.all (fun q => q.1 == "title" || q.1 == "author" ||
      q.1 == "isbn" || q.1 == "available") = true) := by
    intro hall
    have := List.all_eq_true.mp hall p hp
    simp [h1, h2, h3, h4] at this
  unfold decodeBook
  rw [if_neg hall]

lemma decodeBook_missing_title (obj : JObj)
    (h : obj.lookup "title" = none) : decodeBook obj = none := by
  unfold decodeBook
  by_cases hall : (obj.all fun q => q.1 == "title" || q.1 == "author" ||
      q.1 == "isbn" || q.1 == "available") = true
  · rw [if_pos hall, h]
  · rw [if_neg hall]

lemma decodeBook_missing_author (obj : JObj)
    (h : obj.lookup "author" = none) : decodeBook obj = none := by
  unfold decodeBook
  by_cases hall : (obj.all fun q => q.1 == "title" || q.1 == "author" ||
      q.1 == "isbn" || q.1 == "available") = true
  · rw [if_pos hall, h]
    cases h1 : obj.lookup "title" with
    | none => rfl
    | some v => cases v <;> rfl
  · rw [if_neg hall]

lemma decodeBook_missing_isbn (obj : JObj)
    (h : obj.lookup "isbn" = none) : decodeBook obj = none := by
  unfold decodeBook
  by_cases hall : (obj.all fun q => q.1 == "title" || q.1 == "author" ||
      q.1 == "isbn" || q.1 == "available") = true
  · rw [if_pos hall, h]
    cases h1 : obj.lookup "title" with
    | none => rfl
    | some v =>
      cases v with
      | jstr t =>
        cases h2 : obj.lookup "author" with
        | none => rfl
        | some w => cases w <;> rfl
      | jbool bb => rfl
  · rw [if_neg hall]

lemma decodeUser_extra_key (obj : JObj) (p : String × JVal) (hp : p ∈ obj)
    (h1 : p.1 ≠ "name") (h2 : p.1 ≠ "user_id") : decodeUser obj = none := by
  have hall : ¬ (obj.all (fun q => q.1 == "name" || q.1 == "user_id")
      = true) := by
    intro hall
    have := List.all_eq_true.mp hall p hp
    simp [h1, h2] at this
  unfold decodeUser
  rw [if_neg hall]

lemma decodeCheckout_extra_key (obj : JObj) (p : String × JVal)
    (hp : p ∈ obj) (h1 : p.1 ≠ "user_id") (h2 : p.1 ≠ "isbn") :
    decodeCheckout obj = none := by
  have hall : ¬ (obj.all (fun q => q.1 == "user_id" || q.1 == "isbn")
      = true) := by
    intro hall
    have := List.all_eq_true.mp hall p hp
    simp [h1, h2] at this
  unfold decodeCheckout
  rw [if_neg hall]

/-- C9 counterexample: decoding is not lenient about extra keys.  The
same JSON object that decodes to a Book fails to decode (the Python
TypeError for an unexpected keyword argument) as soon as an extra
"extra" key is added, instead of the key being ignored as the claim
states. -/
theorem decode_extra_key_cex :
    decodeBook [("title", .jstr "t"), ("author", .jstr "a"),
        ("isbn", .jstr "1"), ("available", .jbool true),
        ("extra", .jstr "x")] = none ∧
    decodeBook [("title", .jstr "t"), ("author", .jstr "a"),
        ("isbn", .jstr "1"), ("available", .jbool true)]
      = some ⟨"t", "a", "1", true⟩ := by
  decide

/-- C9 amended: decoding is strict, not lenient.  An object holding any
key outside the record kind's constructor parameters fails to decode
(Python TypeError), as does an object missing a defaultless required
field; the only tolerated omission is Book's `available` field, which
defaults to true. -/
theorem decode_strictness :
    (∀ (obj : JObj) (p : String × JVal), p ∈ obj → p.1 ≠ "title" →
        p.1 ≠ "author" → p.1 ≠ "isbn" → p.1 ≠ "available" →
        decodeBook obj = none) ∧
    (∀ obj : JObj, obj.lookup "title" = none → decodeBook obj = none) ∧
    (∀ obj : JObj, obj.lookup "author" = none → decodeBook obj = none) ∧
    (∀ obj : JObj, obj.lookup "isbn" = none → decodeBook obj = none) ∧
    (∀ t a i, decodeBook [("title", .jstr t), ("author", .jstr a),
        ("isbn", .jstr i)] = some ⟨t, a, i, true⟩) ∧
    (∀ (obj : JObj) (p : String × JVal), p ∈ obj → p.1 ≠ "name" →
        p.1 ≠ "user_id" → decodeUser obj = none) ∧
    (∀ (obj : JObj) (p : String × JVal), p ∈ obj → p.1 ≠ "user_id" →
        p.1 ≠ "isbn" → decodeCheckout obj = none) :=
  ⟨decodeBook_extra_key, decodeBook_missing_title,
   decodeBook_missing_author, decodeBook_missing_isbn,
   fun _ _ _ => rfl, decodeUser_extra_key, decodeCheckout_extra_key⟩

/-- Witness for the amended C9: a concrete object with an unexpected
key fails to decode, one missing the required title fails, and one with
exactly the three required fields decodes with available = true. -/
theorem decode_strictness_witness :
    decodeBook [("extra", .jstr "x"), ("title", .jstr "t"),
        ("author", .jstr "a"), ("isbn", .jstr "1")] = none ∧
    decodeBook [("author", .jstr "a"), ("isbn", .jstr "1")] = none ∧
    decodeBook [("title", .jstr "t"), ("author", .jstr "a"),
        ("isbn", .jstr "1")] = some ⟨"t", "a", "1", true⟩ := by
  refine ⟨?_, ?_, ?_⟩
  · exact decode_strictness.1 _ ("extra", .jstr "x") (by decide)
      (by decide) (by decide) (by decide) (by decide)
  · exact decode_strictness.2.1 _ (by decide)
  · exact decode_strictness.2.2.2.2.1 "t" "a" "1"

end LibraryMS
